import Mathlib

/-!
Verification of the eligibility-evaluation orchestrator of the
lender-matching platform (`backend/app/services/eligibility_service.py`,
`backend/app/api/routes/application_routes.py`,
`backend/app/dto/loan_application.py`).

Modelling conventions:
* Python `str` values flowing through the response-normalisation pipeline are
  modelled as `List Char`.
* Python `float` confidence values are modelled as exact rationals `ℚ`
  (the decimal literals 0.4, 0.5, 0.6 of the source are taken exactly).
* A Python `dict.get(key, default)` read of an optional field is modelled by
  an `Option` field together with `Option.getD`.
* Raised exceptions are modelled by `Except` error values; the coordinator's
  `asyncio.gather(..., return_exceptions=True)` materialises every per-lender
  exception as a value, which is why the coordinator itself is a total
  function.
-/

namespace LenderMatching

/-- A parsed JSON value, the result of `json.loads` on the oracle's
response text.  Objects keep their key/value pairs in textual order. -/
inductive Json where
  | null : Json
  | bool (b : Bool) : Json
  | num (q : ℚ) : Json
  | str (s : String) : Json
  | arr (items : List Json) : Json
  | obj (fields : List (String × Json)) : Json

/-! ### Strict JSON parsing (model of `json.loads`)

`json.loads` is the CPython strict JSON decoder: it rejects trailing commas
after the last element of an object or array and rejects unescaped control
characters (code points below 0x20) inside string literals.  The model below
implements that grammar (the nonstandard `NaN` / `Infinity` literals accepted
by CPython are not modelled; no claim touches them). -/

/-- Whitespace characters permitted between JSON tokens. -/
def isJsonWs (c : Char) : Bool :=
  c = ' ' || c = '\t' || c = '\n' || c = '\r'

/-- Skips insignificant whitespace before the next JSON token. -/
def skipWs : List Char → List Char
  | [] => []
  | c :: cs => if isJsonWs c then skipWs cs else c :: cs

/-- Value of a hexadecimal digit, for `\uXXXX` escapes. -/
def hexVal (c : Char) : Option Nat :=
  if '0' ≤ c ∧ c ≤ '9' then some (c.toNat - 48)
  else if 'a' ≤ c ∧ c ≤ 'f' then some (c.toNat - 87)
  else if 'A' ≤ c ∧ c ≤ 'F' then some (c.toNat - 55)
  else none

/-- Translation of a single-character string escape. -/
def escChar (c : Char) : Option Char :=
  if c = '"' then some '"'
  else if c = '\\' then some '\\'
  else if c = '/' then some '/'
  else if c = 'b' then some (Char.ofNat 8)
  else if c = 'f' then some (Char.ofNat 12)
  else if c = 'n' then some '\n'
  else if c = 'r' then some '\r'
  else if c = 't' then some '\t'
  else none

/-- Parses the body of a JSON string literal (the opening quote already
consumed), returning the decoded characters and the remaining input.
Unescaped control characters are rejected, as in strict `json.loads`.
Surrogate-pair recombination of `\uXXXX` escapes is not modelled. -/
def parseStringChars : List Char → Option (List Char × List Char)
  | [] => none
  | '"' :: rest => some ([], rest)
  | '\\' :: 'u' :: a :: b :: c :: d :: rest => do
      let ha ← hexVal a
      let hb ← hexVal b
      let hc ← hexVal c
      let hd ← hexVal d
      let (s, r) ← parseStringChars rest
      some (Char.ofNat (((ha * 16 + hb) * 16 + hc) * 16 + hd) :: s, r)
  | '\\' :: e :: rest => do
      let ec ← escChar e
      let (s, r) ← parseStringChars rest
      some (ec :: s, r)
  | c :: rest =>
      if c.toNat < 32 then none
      else do
        let (s, r) ← parseStringChars rest
        some (c :: s, r)

/-- Longest leading run of decimal digits. -/
def takeDigits : List Char → List Char × List Char
  | [] => ([], [])
  | c :: cs =>
      if c.isDigit then
        let (ds, r) := takeDigits cs
        (c :: ds, r)
      else ([], c :: cs)

/-- Numeric value of a digit run. -/
def digitsToNat (ds : List Char) : Nat :=
  ds.foldl (fun n c => n * 10 + (c.toNat - 48)) 0

/-- Parses an optional fractional part `.digits`, returning its value. -/
def parseFrac (cs : List Char) : Option (ℚ × List Char) :=
  match cs with
  | '.' :: r =>
      let (ds, r2) := takeDigits r
      if ds.isEmpty then none
      else some ((digitsToNat ds : ℚ) / (10 : ℚ) ^ ds.length, r2)
  | _ => some (0, cs)

/-- Parses an optional exponent part, returning the scale factor. -/
def parseExp (cs : List Char) : Option (ℚ × List Char) :=
  match cs with
  | c :: r =>
      if c = 'e' ∨ c = 'E' then
        let (eneg, r1) :=
          match r with
          | '-' :: rr => (true, rr)
          | '+' :: rr => (false, rr)
          | _ => (false, r)
        let (ds, r2) := takeDigits r1
        if ds.isEmpty then none
        else
          let e := digitsToNat ds
          some (if eneg then 1 / (10 : ℚ) ^ e else (10 : ℚ) ^ e, r2)
      else some (1, cs)
  | [] => some (1, [])

/-- Parses a JSON number.  The integer part is `0` or starts with a nonzero
digit (strict JSON rejects leading zeros). -/
def parseNumber (cs : List Char) : Option (ℚ × List Char) :=
  let (neg, cs1) :=
    match cs with
    | '-' :: r => (true, r)
    | _ => (false, cs)
  match cs1 with
  | [] => none
  | c :: r =>
      let core : Option (Nat × List Char) :=
        if c = '0' then
          match r with
          | d :: _ => if d.isDigit then none else some (0, r)
          | [] => some (0, [])
        else if c.isDigit then
          let (ds, r2) := takeDigits r
          some (digitsToNat (c :: ds), r2)
        else none
      match core with
      | none => none
      | some (ip, r1) => do
          let (fr, r2) ← parseFrac r1
          let (sc, r3) ← parseExp r2
          let v : ℚ := ((ip : ℚ) + fr) * sc
          some (if neg then -v else v, r3)

mutual

/-- Parses one JSON value, fuel-bounded. -/
def parseValue : Nat → List Char → Option (Json × List Char)
  | 0, _ => none
  | f + 1, cs =>
      match skipWs cs with
      | 'n' :: 'u' :: 'l' :: 'l' :: r => some (.null, r)
      | 't' :: 'r' :: 'u' :: 'e' :: r => some (.bool true, r)
      | 'f' :: 'a' :: 'l' :: 's' :: 'e' :: r => some (.bool false, r)
      | '"' :: r =>
          match parseStringChars r with
          | some (s, r2) => some (.str (String.mk s), r2)
          | none => none
      | '[' :: r =>
          (match skipWs r with
           | ']' :: r2 => some (.arr [], r2)
           | _ => do
               let (v, r1) ← parseValue f r
               let (vs, r2) ← parseArrayTail f r1
               some (.arr (v :: vs), r2))
      | '\x7b' :: r =>
          (match skipWs r with
           | '\x7d' :: r2 => some (.obj [], r2)
           | _ => do
               let (kv, r1) ← parseMember f r
               let (kvs, r2) ← parseObjectTail f r1
               some (.obj (kv :: kvs), r2))
      | cs1 =>
          match parseNumber cs1 with
          | some (q, r) => some (.num q, r)
          | none => none

/-- Parses the continuation of an array after its first element: either the
closing bracket or a comma followed by another value.  A comma immediately
followed by the closing bracket fails (no trailing commas). -/
def parseArrayTail : Nat → List Char → Option (List Json × List Char)
  | 0, _ => none
  | f + 1, cs =>
      match skipWs cs with
      | ']' :: r => some ([], r)
      | ',' :: r => do
          let (v, r1) ← parseValue f r
          let (vs, r2) ← parseArrayTail f r1
          some (v :: vs, r2)
      | _ => none

/-- Parses one `"key": value` object member. -/
def parseMember : Nat → List Char → Option ((String × Json) × List Char)
  | 0, _ => none
  | f + 1, cs =>
      match skipWs cs with
      | '"' :: r =>
          match parseStringChars r with
          | none => none
          | some (k, r1) =>
              match skipWs r1 with
              | ':' :: r2 => do
                  let (v, r3) ← parseValue f r2
                  some ((String.mk k, v), r3)
              | _ => none
      | _ => none

/-- Parses the continuation of an object after its first member: either the
closing brace or a comma followed by another member.  A comma immediately
followed by the closing brace fails (no trailing commas). -/
def parseObjectTail : Nat → List Char → Option (List (String × Json) × List Char)
  | 0, _ => none
  | f + 1, cs =>
      match skipWs cs with
      | '\x7d' :: r => some ([], r)
      | ',' :: r => do
          let (kv, r1) ← parseMember f r
          let (kvs, r2) ← parseObjectTail f r1
          some (kv :: kvs, r2)
      | _ => none

end

/-- Model of strict `json.loads`: parses a single JSON document and requires
only whitespace to remain afterwards. -/
def json_loads (cs : List Char) : Option Json :=
  match parseValue (2 * cs.length + 2) cs with
  | some (v, rest) => if (skipWs rest).isEmpty then some v else none
  | none => none

/-! ### Response text cleaning (`_clean_response_text`, lines 206-227) -/

/-- The backtick character. -/
def backquote : Char := Char.ofNat 96

/-- The bare markdown fence marker, three backticks. -/
def fence : List Char := [backquote, backquote, backquote]

/-- The fence marker carrying the `json` language tag, seven characters. -/
def fenceJson : List Char := fence ++ ['j', 's', 'o', 'n']

/-- Model of Python `str.strip()`: drop leading and trailing whitespace. -/
def pyStrip (cs : List Char) : List Char :=
  (((cs.dropWhile Char.isWhitespace).reverse).dropWhile Char.isWhitespace).reverse

/-- Model of `EligibilityService._clean_response_text`: strip surrounding
whitespace, drop a leading json-tagged fence (7 characters) or a bare
fence (3 characters), drop a trailing fence, and strip again. -/
def clean_response_text (text : List Char) : List Char :=
  let t := pyStrip text
  let t :=
    if fenceJson.isPrefixOf t then t.drop 7
    else if fence.isPrefixOf t then t.drop 3
    else t
  let t := if fence.isSuffixOf t then t.take (t.length - 3) else t
  pyStrip t

/-! ### Oracle payload and DTOs
(`app/dto/loan_application.py` and `_convert_to_lender_match_dto`) -/

/-- One entry of the `criteria_evaluations` array of a parsed oracle
payload, restricted to the keys read by `_convert_to_lender_match_dto`.
A `none` field models an absent dictionary key (read with `dict.get`). -/
structure CritPayload where
  criteria_key : Option String := none
  display_name : Option String := none
  required_value : Option Json := none
  actual_value : Option Json := none
  met : Option Bool := none
  reasoning : Option String := none

/-- A successfully parsed oracle payload (the `analysis` dictionary),
restricted to the keys read by `_convert_to_lender_match_dto` and to
payloads whose present fields carry the expected JSON types (boolean
`overall_match`, numeric `confidence_score`).  A `none` field models an
absent dictionary key. -/
structure AnalysisPayload where
  overall_match : Option Bool := none
  confidence_score : Option ℚ := none
  overall_reasoning : Option String := none
  criteria_evaluations : Option (List CritPayload) := none
  improvement_suggestions : Option (List String) := none

/-- `CriteriaEvaluationDTO` of `loan_application.py`: per-criterion outcome.
`required_value` and `actual_value` are typed `Any` in the source. -/
structure CriteriaEvaluationDTO where
  criteria_key : String
  display_name : String
  required_value : Option Json
  actual_value : Option Json
  met : Bool
  reasoning : String

/-- `LenderMatchDTO` of `loan_application.py`: per-lender judgment. -/
structure LenderMatchDTO where
  lender_id : String
  lender_name : String
  confidence_score : ℚ
  overall_reasoning : String
  criteria_evaluations : List CriteriaEvaluationDTO
  improvement_suggestions : Option (List String)

/-- `EligibilityResultDTO` of `loan_application.py`: the full report.  The
`datetime` timestamp is modelled as an opaque `Nat`. -/
structure EligibilityResultDTO where
  application_id : String
  matched_lenders : List LenderMatchDTO
  unmatched_lenders : List LenderMatchDTO
  analysis_timestamp : Nat
  total_lenders_evaluated : Nat

/-- Errors raised inside a single lender evaluation.  The source wraps each
of them in a plain `Exception`; the constructors record which program point
raised. -/
inductive EvalError where
  | oracleError : EvalError
  | attributeMissing : EvalError
  | decodeError : EvalError
  | validationError : EvalError
deriving DecidableEq

/-- Model of the pydantic validation performed when `LenderMatchDTO` is
instantiated: `confidence_score` is declared `Field(..., ge=0, le=1)`, so
construction fails with a `ValidationError` outside `[0, 1]`. -/
def mkLenderMatchDTO (lender_id lender_name : String) (confidence_score : ℚ)
    (overall_reasoning : String) (criteria_evaluations : List CriteriaEvaluationDTO)
    (improvement_suggestions : Option (List String)) : Except EvalError LenderMatchDTO :=
  if 0 ≤ confidence_score ∧ confidence_score ≤ 1 then
    .ok
      { lender_id := lender_id
        lender_name := lender_name
        confidence_score := confidence_score
        overall_reasoning := overall_reasoning
        criteria_evaluations := criteria_evaluations
        improvement_suggestions := improvement_suggestions }
  else .error .validationError

/-- Conversion of one `criteria_evaluations` entry, with the `dict.get`
defaults of `_convert_to_lender_match_dto` (lines 248-258). -/
def convert_crit (crit : CritPayload) : CriteriaEvaluationDTO :=
  { criteria_key := crit.criteria_key.getD ""
    display_name := crit.display_name.getD ""
    required_value := crit.required_value
    actual_value := crit.actual_value
    met := crit.met.getD false
    reasoning := crit.reasoning.getD "" }

/-- The confidence-consistency correction of `_convert_to_lender_match_dto`
(lines 264-268): if the oracle reports no match with confidence at least
0.5, the confidence becomes 0.4; if it reports a match with confidence
below 0.5, it becomes 0.6; otherwise it is unchanged. -/
def adjust_confidence (overall_match : Bool) (base_confidence : ℚ) : ℚ :=
  if ¬ overall_match ∧ base_confidence ≥ 0.5 then 0.4
  else if overall_match ∧ base_confidence < 0.5 then 0.6
  else base_confidence

/-- Model of `_convert_to_lender_match_dto` (lines 229-277): extract the
fields with their `dict.get` defaults (`overall_match` defaults to `False`,
`confidence_score` to `0.5`), apply the confidence-consistency correction,
and build the pydantic DTO (whose validation may fail). -/
def convert_to_lender_match_dto (lender_id lender_name : String)
    (analysis : AnalysisPayload) : Except EvalError LenderMatchDTO :=
  let criteria_evals := (analysis.criteria_evaluations.getD []).map convert_crit
  let overall_match := analysis.overall_match.getD false
  let base_confidence := analysis.confidence_score.getD 0.5
  let base_confidence := adjust_confidence overall_match base_confidence
  mkLenderMatchDTO lender_id lender_name base_confidence
    (analysis.overall_reasoning.getD "") criteria_evals
    (some (analysis.improvement_suggestions.getD []))

/-! ### The per-lender evaluation (`_evaluate_single_lender`, lines 91-183) -/

/-- The repair helper invoked at line 161 as a method of
`EligibilityService`.  The class defines no method of that name anywhere in
the repository, so at run time Python's attribute lookup raises
`AttributeError` before any repair of the text can happen; the surrounding
`except Exception` clause (line 180) re-raises it as a plain `Exception`. -/
def fix_json_issues (_cleaned : List Char) : Except EvalError (List Char) :=
  .error .attributeMissing

/-- The parsing portion of `_evaluate_single_lender` (lines 149-162): clean
the response text, attempt strict JSON parsing, and on failure fall back to
re-parsing the output of the repair helper. -/
def parse_analysis (response_text : List Char) : Except EvalError Json :=
  let cleaned := clean_response_text response_text
  match json_loads cleaned with
  | some analysis => .ok analysis
  | none =>
      match fix_json_issues cleaned with
      | .ok fixed =>
          match json_loads fixed with
          | some analysis => .ok analysis
          | none => .error .decodeError
      | .error e => .error e

/-- One lender record handed to the evaluator: the dictionary built by the
routes, read with `dict.get` defaults at lines 109-111 (the criteria list
only feeds the prompt text, which is outside the evaluated model). -/
structure LenderData where
  _id : Option String := none
  name : Option String := none

/-- Outcome of the oracle call and response-normalisation stage for one
lender, abstracting the network:
* `httpError` — the HTTP call failed or returned a non-success status;
* `malformedText` — the call succeeded but the cleaned response text fails
  strict JSON parsing (by `parse_analysis` this ends in the missing-method
  `AttributeError`);
* `parsed p` — the cleaned response text parsed to the object `p`. -/
inductive OracleOutcome where
  | httpError : OracleOutcome
  | malformedText : OracleOutcome
  | parsed (analysis : AnalysisPayload) : OracleOutcome

/-- Model of `_evaluate_single_lender`: resolve the lender identity with its
`dict.get` defaults and turn the oracle outcome into a judgment or an
error.  Every raised exception becomes an `Except.error`, which is what the
coordinator's `asyncio.gather(..., return_exceptions=True)` observes. -/
def evaluate_single_lender (oracle : LenderData → OracleOutcome)
    (lender : LenderData) : Except EvalError LenderMatchDTO :=
  let lender_id := lender._id.getD ""
  let lender_name := lender.name.getD "Unknown Lender"
  match oracle lender with
  | .httpError => .error .oracleError
  | .malformedText => .error .attributeMissing
  | .parsed analysis => convert_to_lender_match_dto lender_id lender_name analysis

/-! ### The fan-out coordinator (`evaluate_application`, lines 35-89) -/

/-- The successful judgments among the gathered per-lender results, in
submission order: the loop at lines 68-77 skips every result that is an
exception instance. -/
def successes (results : List (Except EvalError LenderMatchDTO)) :
    List LenderMatchDTO :=
  results.filterMap Except.toOption

/-- Stable insertion of a judgment into a list sorted by descending
confidence: the new element goes after every element of confidence not
below its own.  `sortDescBy` built on this models Python's stable
`list.sort(key=lambda x: x.confidence_score, reverse=True)`. -/
def insertDesc (x : LenderMatchDTO) : List LenderMatchDTO → List LenderMatchDTO
  | [] => [x]
  | y :: ys =>
      if y.confidence_score ≤ x.confidence_score then x :: y :: ys
      else y :: insertDesc x ys

/-- Stable sort by descending confidence score, the model of the sorts at
lines 80-81.  Python's sort is stable, so equal-confidence judgments keep
their relative submission order. -/
def sortDesc : List LenderMatchDTO → List LenderMatchDTO
  | [] => []
  | x :: xs => insertDesc x (sortDesc xs)

/-- Model of `EligibilityService.evaluate_application` (lines 35-89).  The
`asyncio.gather(*tasks, return_exceptions=True)` call waits for every task
and yields the outcomes in task-submission order regardless of completion
order, with per-task exceptions materialised as values — hence the
coordinator is a total function of the per-lender outcomes: the loop skips
exception results, partitions the judgments by the 0.5 threshold, sorts
each partition by descending confidence, and assembles the report. -/
def evaluate_application (application_id : String)
    (oracle : LenderData → OracleOutcome) (lenders_with_criteria : List LenderData)
    (now : Nat) : EligibilityResultDTO :=
  let evaluation_results := lenders_with_criteria.map (evaluate_single_lender oracle)
  let ok := successes evaluation_results
  let matched_lenders := ok.filter (fun r => 0.5 ≤ r.confidence_score)
  let unmatched_lenders := ok.filter (fun r => ¬ 0.5 ≤ r.confidence_score)
  { application_id := application_id
    matched_lenders := sortDesc matched_lenders
    unmatched_lenders := sortDesc unmatched_lenders
    analysis_timestamp := now
    total_lenders_evaluated := lenders_with_criteria.length }

/-! ### The route-level guard
(`submit_and_evaluate_application`, `application_routes.py` lines 74-95) -/

/-- Route-level failure: the HTTP 400 response raised when the lender list
is empty (`"No lenders available for evaluation"`). -/
inductive RouteError where
  | noLendersAvailable : RouteError
deriving DecidableEq

/-- The slice of the `/applications/submit` (and `/applications/evaluate`)
route around the orchestrator: both endpoints raise the 400 precondition
error when the lender list fetched from storage is empty, and only
otherwise invoke `evaluate_application`. -/
def submit_and_evaluate (application_id : String)
    (oracle : LenderData → OracleOutcome) (lenders : List LenderData)
    (now : Nat) : Except RouteError EligibilityResultDTO :=
  if lenders.isEmpty then .error .noLendersAvailable
  else .ok (evaluate_application application_id oracle lenders now)

/-! ### Lemmas about stripping and fence removal -/

/-- Left half of `str.strip()`. -/
def ltrim (cs : List Char) : List Char := cs.dropWhile Char.isWhitespace

/-- Right half of `str.strip()`. -/
def rtrim (cs : List Char) : List Char := (cs.reverse.dropWhile Char.isWhitespace).reverse

/-- A payload wrapped in a markdown fenced code block carrying the `json`
language tag. -/
def fenceWrapJson (payload : List Char) : List Char :=
  fenceJson ++ '\n' :: (payload ++ '\n' :: fence)

/-- A payload wrapped in a bare markdown fenced code block. -/
def fenceWrapBare (payload : List Char) : List Char :=
  fence ++ '\n' :: (payload ++ '\n' :: fence)

/-- A payload wrapped in a markdown fenced code block carrying an arbitrary
language tag. -/
def fenceWrapTagged (tag payload : List Char) : List Char :=
  fence ++ (tag ++ '\n' :: (payload ++ '\n' :: fence))

/-! ### Concrete instances used by the claim theorems and witnesses -/

/-- Example lender A. -/
def exLenderA : LenderData := { _id := some "A", name := some "Lender A" }

/-- Example lender B. -/
def exLenderB : LenderData := { _id := some "B", name := some "Lender B" }

/-- Example lender C. -/
def exLenderC : LenderData := { _id := some "C", name := some "Lender C" }

/-- Oracle behaviour for the sort-stability scenario: lenders A and B match
with confidence 0.9, lender C does not match with confidence 0.3. -/
def exOracleSort : LenderData → OracleOutcome := fun l =>
  if l._id = some "A" then
    .parsed { overall_match := some true, confidence_score := some 0.9 }
  else if l._id = some "B" then
    .parsed { overall_match := some true, confidence_score := some 0.9 }
  else
    .parsed { overall_match := some false, confidence_score := some 0.3 }

/-- Judgment produced for lender A in the sort-stability scenario. -/
def exDtoA : LenderMatchDTO :=
  { lender_id := "A", lender_name := "Lender A", confidence_score := 0.9,
    overall_reasoning := "", criteria_evaluations := [],
    improvement_suggestions := some [] }

/-- Judgment produced for lender B in the sort-stability scenario. -/
def exDtoB : LenderMatchDTO :=
  { lender_id := "B", lender_name := "Lender B", confidence_score := 0.9,
    overall_reasoning := "", criteria_evaluations := [],
    improvement_suggestions := some [] }

/-- Judgment produced for lender C in the sort-stability scenario. -/
def exDtoC : LenderMatchDTO :=
  { lender_id := "C", lender_name := "Lender C", confidence_score := 0.3,
    overall_reasoning := "", criteria_evaluations := [],
    improvement_suggestions := some [] }

/-- Oracle behaviour for the isolation scenario of the spec: lender A
succeeds with confidence 0.9, lender B's call raises a network fault,
lender C succeeds with confidence 0.3. -/
def exOracleIso : LenderData → OracleOutcome := fun l =>
  if l._id = some "A" then
    .parsed { overall_match := some true, confidence_score := some 0.9 }
  else if l._id = some "B" then
    .httpError
  else
    .parsed { overall_match := some false, confidence_score := some 0.3 }

/-- Oracle behaviour producing a payload with both `overall_match` and
`confidence_score` absent. -/
def exOracleNone : LenderData → OracleOutcome := fun _ =>
  .parsed { overall_match := none, confidence_score := none }

/-- Judgment produced for lender A when both fields are absent: defaults
`False` and `0.5` are read, then the consistency correction yields 0.4. -/
def exDtoNone : LenderMatchDTO :=
  { lender_id := "A", lender_name := "Lender A", confidence_score := 0.4,
    overall_reasoning := "", criteria_evaluations := [],
    improvement_suggestions := some [] }

/-- The trailing-comma payload used to exercise the repair path: strict JSON
parsing rejects it, which is exactly the artifact the spec's repair pass is
required to fix. -/
def badTrailingComma : List Char := "\x7b\"overall_match\": true,\x7d".toList

/-! ### Lemmas about the stable descending sort -/

theorem insertDesc_perm (x : LenderMatchDTO) (l : List LenderMatchDTO) :
    List.Perm (insertDesc x l) (x :: l) := by
  induction l with
  | nil => exact List.Perm.refl _
  | cons y ys ih =>
      by_cases h : y.confidence_score ≤ x.confidence_score
      · rw [insertDesc, if_pos h]
      · rw [insertDesc, if_neg h]
        exact (ih.cons y).trans (List.Perm.swap x y ys)

theorem sortDesc_perm (l : List LenderMatchDTO) : List.Perm (sortDesc l) l := by
  induction l with
  | nil => exact List.Perm.refl _
  | cons x xs ih => exact (insertDesc_perm x (sortDesc xs)).trans (ih.cons x)

theorem mem_sortDesc {a : LenderMatchDTO} {l : List LenderMatchDTO} :
    a ∈ sortDesc l ↔ a ∈ l :=
  (sortDesc_perm l).mem_iff

theorem insertDesc_pairwise {x : LenderMatchDTO} {l : List LenderMatchDTO}
    (hl : l.Pairwise (fun a b => b.confidence_score ≤ a.confidence_score)) :
    (insertDesc x l).Pairwise (fun a b => b.confidence_score ≤ a.confidence_score) := by
  induction l with
  | nil => simp [insertDesc]
  | cons y ys ih =>
      rcases List.pairwise_cons.mp hl with ⟨hy, hys⟩
      by_cases h : y.confidence_score ≤ x.confidence_score
      · rw [insertDesc, if_pos h]
        refine List.pairwise_cons.mpr ⟨?_, hl⟩
        intro b hb
        rcases List.mem_cons.mp hb with rfl | hb
        · exact h
        · exact (hy b hb).trans h
      · rw [insertDesc, if_neg h]
        refine List.pairwise_cons.mpr ⟨?_, ih hys⟩
        intro b hb
        rcases List.mem_cons.mp ((insertDesc_perm x ys).mem_iff.mp hb) with rfl | hb
        · exact le_of_lt (lt_of_not_le h)
        · exact hy b hb

theorem sortDesc_pairwise (l : List LenderMatchDTO) :
    (sortDesc l).Pairwise (fun a b => b.confidence_score ≤ a.confidence_score) := by
  induction l with
  | nil => simp [sortDesc]
  | cons x xs ih => exact insertDesc_pairwise ih

theorem insertDesc_filter_eq (x : LenderMatchDTO) (l : List LenderMatchDTO)
    (c : ℚ) (hx : x.confidence_score = c) :
    (insertDesc x l).filter (fun y => y.confidence_score = c) =
      x :: l.filter (fun y => y.confidence_score = c) := by
  induction l with
  | nil => simp [insertDesc, List.filter_cons, hx]
  | cons y ys ih =>
      by_cases h : y.confidence_score ≤ x.confidence_score
      · rw [insertDesc, if_pos h]
        simp [List.filter_cons, hx]
      · have hy : ¬ y.confidence_score = c := fun hc => h (le_of_eq (hx ▸ hc))
        rw [insertDesc, if_neg h]
        simp only [List.filter_cons, ih]
        simp [hy]

theorem insertDesc_filter_ne (x : LenderMatchDTO) (l : List LenderMatchDTO)
    (c : ℚ) (hx : ¬ x.confidence_score = c) :
    (insertDesc x l).filter (fun y => y.confidence_score = c) =
      l.filter (fun y => y.confidence_score = c) := by
  induction l with
  | nil => simp [insertDesc, List.filter_cons, hx]
  | cons y ys ih =>
      by_cases h : y.confidence_score ≤ x.confidence_score
      · rw [insertDesc, if_pos h]
        simp [List.filter_cons, hx]
      · rw [insertDesc, if_neg h]
        simp only [List.filter_cons, ih]

theorem sortDesc_filter (l : List LenderMatchDTO) (c : ℚ) :
    (sortDesc l).filter (fun y => y.confidence_score = c) =
      l.filter (fun y => y.confidence_score = c) := by
  induction l with
  | nil => rfl
  | cons x xs ih =>
      by_cases hx : x.confidence_score = c
      · rw [sortDesc, insertDesc_filter_eq x _ c hx, ih, List.filter_cons]
        simp [hx]
      · rw [sortDesc, insertDesc_filter_ne x _ c hx, ih, List.filter_cons]
        simp [hx]

/-! ### Lemmas about the per-lender pipeline -/

theorem adjust_confidence_ge_half_iff (om : Bool) (b : ℚ) :
    0.5 ≤ adjust_confidence om b ↔ om = true := by
  cases om with
  | false =>
      simp only [adjust_confidence]
      by_cases hb : b ≥ 0.5
      · rw [if_pos ⟨by simp, hb⟩]
        norm_num
      · rw [if_neg (by simp [hb]), if_neg (by simp)]
        simp only [Bool.false_eq_true, iff_false]
        exact fun hc => hb hc
  | true =>
      simp only [adjust_confidence]
      by_cases hb : b < 0.5
      · rw [if_neg (by simp), if_pos ⟨by simp, hb⟩]
        norm_num
      · rw [if_neg (by simp), if_neg (by simp [hb])]
        simpa using le_of_not_lt hb

theorem convert_ok_conf {lender_id lender_name : String} {p : AnalysisPayload}
    {dto : LenderMatchDTO}
    (h : convert_to_lender_match_dto lender_id lender_name p = .ok dto) :
    dto.confidence_score =
      adjust_confidence (p.overall_match.getD false) (p.confidence_score.getD 0.5) := by
  unfold convert_to_lender_match_dto mkLenderMatchDTO at h
  by_cases hv :
      0 ≤ adjust_confidence (p.overall_match.getD false) (p.confidence_score.getD 0.5) ∧
        adjust_confidence (p.overall_match.getD false) (p.confidence_score.getD 0.5) ≤ 1
  · rw [if_pos hv] at h
    cases h
    rfl
  · rw [if_neg hv] at h
    cases h

theorem convert_ok_bounds {lender_id lender_name : String} {p : AnalysisPayload}
    {dto : LenderMatchDTO}
    (h : convert_to_lender_match_dto lender_id lender_name p = .ok dto) :
    0 ≤ dto.confidence_score ∧ dto.confidence_score ≤ 1 := by
  unfold convert_to_lender_match_dto mkLenderMatchDTO at h
  by_cases hv :
      0 ≤ adjust_confidence (p.overall_match.getD false) (p.confidence_score.getD 0.5) ∧
        adjust_confidence (p.overall_match.getD false) (p.confidence_score.getD 0.5) ≤ 1
  · rw [if_pos hv] at h
    cases h
    exact hv
  · rw [if_neg hv] at h
    cases h

theorem convert_invalid {lender_id lender_name : String} {p : AnalysisPayload}
    (hv : ¬ (0 ≤ adjust_confidence (p.overall_match.getD false) (p.confidence_score.getD 0.5) ∧
        adjust_confidence (p.overall_match.getD false) (p.confidence_score.getD 0.5) ≤ 1)) :
    convert_to_lender_match_dto lender_id lender_name p = .error .validationError := by
  unfold convert_to_lender_match_dto mkLenderMatchDTO
  rw [if_neg hv]

theorem evaluate_single_lender_ok_iff {oracle : LenderData → OracleOutcome}
    {lender : LenderData} {dto : LenderMatchDTO} :
    evaluate_single_lender oracle lender = .ok dto ↔
      ∃ p, oracle lender = .parsed p ∧
        convert_to_lender_match_dto (lender._id.getD "")
          (lender.name.getD "Unknown Lender") p = .ok dto := by
  unfold evaluate_single_lender
  cases ho : oracle lender with
  | httpError => simp
  | malformedText => simp
  | parsed p =>
      simp only []
      constructor
      · intro h
        exact ⟨p, rfl, h⟩
      · rintro ⟨q, hq, hc⟩
        cases hq
        exact hc

theorem mem_successes {dto : LenderMatchDTO}
    {results : List (Except EvalError LenderMatchDTO)} :
    dto ∈ successes results ↔ Except.ok dto ∈ results := by
  unfold successes
  rw [List.mem_filterMap]
  constructor
  · rintro ⟨r, hr, hro⟩
    cases r with
    | ok d => cases hro; exact hr
    | error e => cases hro
  · intro h
    exact ⟨.ok dto, h, rfl⟩

theorem mem_matched_iff {application_id : String} {oracle : LenderData → OracleOutcome}
    {lenders : List LenderData} {now : Nat} {dto : LenderMatchDTO} :
    dto ∈ (evaluate_application application_id oracle lenders now).matched_lenders ↔
      dto ∈ successes (lenders.map (evaluate_single_lender oracle)) ∧
        0.5 ≤ dto.confidence_score := by
  unfold evaluate_application
  simp only [mem_sortDesc, List.mem_filter]
  simp

theorem mem_unmatched_iff {application_id : String} {oracle : LenderData → OracleOutcome}
    {lenders : List LenderData} {now : Nat} {dto : LenderMatchDTO} :
    dto ∈ (evaluate_application application_id oracle lenders now).unmatched_lenders ↔
      dto ∈ successes (lenders.map (evaluate_single_lender oracle)) ∧
        ¬ 0.5 ≤ dto.confidence_score := by
  unfold evaluate_application
  simp only [mem_sortDesc, List.mem_filter]
  simp

theorem pyStrip_eq_rtrim_ltrim (cs : List Char) : pyStrip cs = rtrim (ltrim cs) := rfl

theorem ltrim_cons_of_ws {c : Char} (l : List Char) (h : c.isWhitespace = true) :
    ltrim (c :: l) = ltrim l := by
  simp [ltrim, List.dropWhile_cons, h]

theorem ltrim_cons_of_not_ws {c : Char} (l : List Char) (h : c.isWhitespace = false) :
    ltrim (c :: l) = c :: l := by
  simp [ltrim, List.dropWhile_cons, h]

theorem ltrim_append (l m : List Char) :
    ltrim (l ++ m) = if ltrim l = [] then ltrim m else ltrim l ++ m := by
  induction l with
  | nil => simp [ltrim]
  | cons c l' ih =>
      cases h : c.isWhitespace with
      | true =>
          rw [List.cons_append, ltrim_cons_of_ws _ h, ltrim_cons_of_ws _ h, ih]
      | false =>
          rw [List.cons_append, ltrim_cons_of_not_ws _ h, ltrim_cons_of_not_ws _ h,
            if_neg (List.cons_ne_nil c l')]
          simp

theorem ltrim_head_not_ws {l t : List Char} {c : Char} (h : ltrim l = c :: t) :
    c.isWhitespace = false := by
  induction l with
  | nil => cases h
  | cons d l' ih =>
      cases hd : d.isWhitespace with
      | true => exact ih (by rwa [ltrim_cons_of_ws _ hd] at h)
      | false =>
          rw [ltrim_cons_of_not_ws _ hd] at h
          cases h
          exact hd

theorem ltrim_idem (l : List Char) : ltrim (ltrim l) = ltrim l := by
  cases h : ltrim l with
  | nil => rfl
  | cons c t => exact ltrim_cons_of_not_ws _ (ltrim_head_not_ws h)

theorem rtrim_concat_of_ws {c : Char} (l : List Char) (h : c.isWhitespace = true) :
    rtrim (l ++ [c]) = rtrim l := by
  unfold rtrim
  rw [List.reverse_append, List.reverse_cons, List.reverse_nil, List.nil_append,
    List.cons_append, List.nil_append, List.dropWhile_cons, h]
  simp

theorem rtrim_concat_of_not_ws {c : Char} (l : List Char) (h : c.isWhitespace = false) :
    rtrim (l ++ [c]) = l ++ [c] := by
  unfold rtrim
  rw [List.reverse_append, List.reverse_cons, List.reverse_nil, List.nil_append,
    List.cons_append, List.nil_append, List.dropWhile_cons, h]
  simp

theorem rtrim_eq_reverse_ltrim (l : List Char) : rtrim l = (ltrim l.reverse).reverse := rfl

theorem rtrim_append_of_rtrim_nil {r : List Char} (m : List Char) (h : rtrim r = []) :
    rtrim (m ++ r) = rtrim m := by
  have hr : ltrim r.reverse = [] := by
    have h2 := congrArg List.reverse h
    rwa [rtrim_eq_reverse_ltrim, List.reverse_reverse, List.reverse_nil] at h2
  have h3 : rtrim (m ++ r) = (ltrim (r.reverse ++ m.reverse)).reverse := by
    rw [rtrim_eq_reverse_ltrim, List.reverse_append]
  rw [h3, ltrim_append, if_pos hr, ← rtrim_eq_reverse_ltrim]

theorem rtrim_idem (l : List Char) : rtrim (rtrim l) = rtrim l := by
  rw [rtrim_eq_reverse_ltrim, rtrim_eq_reverse_ltrim l, List.reverse_reverse,
    ltrim_idem]

theorem rtrim_prefix_self (l : List Char) : rtrim l <+: l := by
  have h : ltrim l.reverse <:+ l.reverse := List.dropWhile_suffix _
  have h2 := List.reverse_prefix.mpr h
  rwa [List.reverse_reverse] at h2

theorem pyStrip_idem (l : List Char) : pyStrip (pyStrip l) = pyStrip l := by
  rw [pyStrip_eq_rtrim_ltrim, pyStrip_eq_rtrim_ltrim]
  have h1 : ltrim (rtrim (ltrim l)) = rtrim (ltrim l) := by
    cases hq : rtrim (ltrim l) with
    | nil => rfl
    | cons c t =>
        have hpre : rtrim (ltrim l) <+: ltrim l := rtrim_prefix_self _
        rw [hq] at hpre
        rcases hpre with ⟨s, hs⟩
        have hee : ltrim l = c :: (t ++ s) := by rw [← hs]; simp
        have hc : c.isWhitespace = false :=
          ltrim_head_not_ws (show ltrim (ltrim l) = c :: (t ++ s) by
            rw [ltrim_idem]; exact hee)
        exact ltrim_cons_of_not_ws _ hc
  rw [h1, rtrim_idem]

theorem backquote_not_ws : backquote.isWhitespace = false := by decide

theorem ltrim_fenceJson_append (r : List Char) :
    ltrim (fenceJson ++ r) = fenceJson ++ r := by
  have h : fenceJson ++ r =
      backquote :: ([backquote, backquote, 'j', 's', 'o', 'n'] ++ r) := by
    simp [fenceJson, fence]
  rw [h, ltrim_cons_of_not_ws _ backquote_not_ws]

theorem ltrim_fence_append (r : List Char) :
    ltrim (fence ++ r) = fence ++ r := by
  have h : fence ++ r = backquote :: ([backquote, backquote] ++ r) := by
    simp [fence]
  rw [h, ltrim_cons_of_not_ws _ backquote_not_ws]

theorem rtrim_append_fence (m : List Char) : rtrim (m ++ fence) = m ++ fence := by
  have h : m ++ fence = (m ++ [backquote, backquote]) ++ [backquote] := by
    simp [fence]
  rw [h, rtrim_concat_of_not_ws _ backquote_not_ws]

theorem drop_fenceJson (r : List Char) : (fenceJson ++ r).drop 7 = r := by
  have h : (7 : Nat) = fenceJson.length := by simp [fenceJson, fence]
  rw [h, List.drop_left]

theorem drop_fence (r : List Char) : (fence ++ r).drop 3 = r := by
  have h : (3 : Nat) = fence.length := by simp [fence]
  rw [h, List.drop_left]

theorem take_before_fence (m : List Char) :
    (m ++ fence).take ((m ++ fence).length - 3) = m := by
  have h : (m ++ fence).length - 3 = m.length := by simp [fence]
  rw [h, List.take_left]

theorem fenceJson_isPrefixOf_append (r : List Char) :
    fenceJson.isPrefixOf (fenceJson ++ r) = true :=
  List.isPrefixOf_iff_prefix.mpr (List.prefix_append _ _)

theorem fence_isPrefixOf_append (r : List Char) :
    fence.isPrefixOf (fence ++ r) = true :=
  List.isPrefixOf_iff_prefix.mpr (List.prefix_append _ _)

theorem fence_isSuffixOf_append (m : List Char) :
    fence.isSuffixOf (m ++ fence) = true :=
  List.isSuffixOf_iff_suffix.mpr (List.suffix_append _ _)

theorem fence_prefix_of_fenceJson {q : List Char}
    (h : fenceJson.isPrefixOf q = true) : fence.isPrefixOf q = true :=
  List.isPrefixOf_iff_prefix.mpr
    ((List.prefix_append fence ['j', 's', 'o', 'n']).trans
      (List.isPrefixOf_iff_prefix.mp h))

theorem fenceJson_not_prefix_bare (r : List Char) :
    fenceJson.isPrefixOf (fence ++ '\n' :: r) = false := by
  cases h : fenceJson.isPrefixOf (fence ++ '\n' :: r) with
  | false => rfl
  | true =>
      exfalso
      have hp := List.isPrefixOf_iff_prefix.mp h
      rw [show fenceJson = backquote :: backquote :: backquote :: 'j' :: ['s', 'o', 'n']
            from by simp [fenceJson, fence],
          show fence ++ '\n' :: r = backquote :: backquote :: backquote :: '\n' :: r
            from by simp [fence]] at hp
      rcases List.cons_prefix_cons.mp hp with ⟨-, hp⟩
      rcases List.cons_prefix_cons.mp hp with ⟨-, hp⟩
      rcases List.cons_prefix_cons.mp hp with ⟨-, hp⟩
      rcases List.cons_prefix_cons.mp hp with ⟨hj, -⟩
      exact absurd hj (by decide)

theorem pyStrip_ws_pad (p : List Char) :
    pyStrip ('\n' :: (p ++ ['\n'])) = pyStrip p := by
  rw [pyStrip_eq_rtrim_ltrim, pyStrip_eq_rtrim_ltrim,
    ltrim_cons_of_ws _ (by decide), ltrim_append]
  by_cases hp0 : ltrim p = []
  · rw [if_pos hp0, hp0]
    rfl
  · rw [if_neg hp0, rtrim_concat_of_ws _ (by decide)]

/-- `clean_response_text` is plain stripping when the stripped text neither
starts nor ends with a fence marker. -/
theorem clean_of_no_fence (p : List Char)
    (h1 : fence.isPrefixOf (pyStrip p) = false)
    (h2 : fence.isSuffixOf (pyStrip p) = false) :
    clean_response_text p = pyStrip p := by
  have hj : fenceJson.isPrefixOf (pyStrip p) = false := by
    cases hc : fenceJson.isPrefixOf (pyStrip p) with
    | false => rfl
    | true => rw [fence_prefix_of_fenceJson hc] at h1; cases h1
  simp only [clean_response_text]
  rw [hj, h1]
  simp only [Bool.false_eq_true, if_false]
  rw [h2]
  simp only [Bool.false_eq_true, if_false]
  exact pyStrip_idem p

theorem clean_fenceWrapJson (p : List Char)
    (h1 : fence.isPrefixOf (pyStrip p) = false)
    (h2 : fence.isSuffixOf (pyStrip p) = false) :
    clean_response_text (fenceWrapJson p) = clean_response_text p := by
  rw [clean_of_no_fence p h1 h2]
  simp only [clean_response_text, fenceWrapJson]
  have hA : pyStrip (fenceJson ++ '\n' :: (p ++ '\n' :: fence)) =
      fenceJson ++ '\n' :: (p ++ '\n' :: fence) := by
    rw [pyStrip_eq_rtrim_ltrim, ltrim_fenceJson_append]
    have hshape : fenceJson ++ '\n' :: (p ++ '\n' :: fence) =
        (fenceJson ++ '\n' :: (p ++ ['\n'])) ++ fence := by simp
    rw [hshape, rtrim_append_fence]
  rw [hA, if_pos (fenceJson_isPrefixOf_append ('\n' :: (p ++ '\n' :: fence))),
    drop_fenceJson]
  have hshape2 : '\n' :: (p ++ '\n' :: fence) = ('\n' :: (p ++ ['\n'])) ++ fence := by
    simp
  rw [hshape2, if_pos (fence_isSuffixOf_append ('\n' :: (p ++ ['\n']))),
    take_before_fence]
  exact pyStrip_ws_pad p

theorem clean_fenceWrapBare (p : List Char)
    (h1 : fence.isPrefixOf (pyStrip p) = false)
    (h2 : fence.isSuffixOf (pyStrip p) = false) :
    clean_response_text (fenceWrapBare p) = clean_response_text p := by
  rw [clean_of_no_fence p h1 h2]
  simp only [clean_response_text, fenceWrapBare]
  have hA : pyStrip (fence ++ '\n' :: (p ++ '\n' :: fence)) =
      fence ++ '\n' :: (p ++ '\n' :: fence) := by
    rw [pyStrip_eq_rtrim_ltrim, ltrim_fence_append]
    have hshape : fence ++ '\n' :: (p ++ '\n' :: fence) =
        (fence ++ '\n' :: (p ++ ['\n'])) ++ fence := by simp
    rw [hshape, rtrim_append_fence]
  rw [hA, fenceJson_not_prefix_bare]
  simp only [Bool.false_eq_true, if_false]
  rw [if_pos (fence_isPrefixOf_append ('\n' :: (p ++ '\n' :: fence))), drop_fence]
  have hshape2 : '\n' :: (p ++ '\n' :: fence) = ('\n' :: (p ++ ['\n'])) ++ fence := by
    simp
  rw [hshape2, if_pos (fence_isSuffixOf_append ('\n' :: (p ++ ['\n']))),
    take_before_fence]
  exact pyStrip_ws_pad p

theorem exEvalA : evaluate_single_lender exOracleSort exLenderA = .ok exDtoA := by
  simp [evaluate_single_lender, exOracleSort, exLenderA, convert_to_lender_match_dto,
    mkLenderMatchDTO, adjust_confidence, exDtoA,
    show ¬ ((0.9:ℚ) < 0.5) by norm_num, show (0:ℚ) ≤ 0.9 by norm_num,
    show (0.9:ℚ) ≤ 1 by norm_num]

theorem exEvalB : evaluate_single_lender exOracleSort exLenderB = .ok exDtoB := by
  simp [evaluate_single_lender, exOracleSort, exLenderB, convert_to_lender_match_dto,
    mkLenderMatchDTO, adjust_confidence, exDtoB,
    show ¬ ((0.9:ℚ) < 0.5) by norm_num, show (0:ℚ) ≤ 0.9 by norm_num,
    show (0.9:ℚ) ≤ 1 by norm_num]

theorem exEvalC : evaluate_single_lender exOracleSort exLenderC = .ok exDtoC := by
  simp [evaluate_single_lender, exOracleSort, exLenderC, convert_to_lender_match_dto,
    mkLenderMatchDTO, adjust_confidence, exDtoC,
    show ¬ ((0.5:ℚ) ≤ 0.3) by norm_num, show (0:ℚ) ≤ 0.3 by norm_num,
    show (0.3:ℚ) ≤ 1 by norm_num]

theorem exSort_report :
    evaluate_application "app-1" exOracleSort [exLenderA, exLenderB, exLenderC] 7 =
      { application_id := "app-1", matched_lenders := [exDtoA, exDtoB],
        unmatched_lenders := [exDtoC], analysis_timestamp := 7,
        total_lenders_evaluated := 3 } := by
  simp [evaluate_application, exEvalA, exEvalB, exEvalC, successes, Except.toOption,
    sortDesc, insertDesc, exDtoA, exDtoB, exDtoC,
    show (0.5:ℚ) ≤ 0.9 by norm_num, show ¬ ((0.5:ℚ) ≤ 0.3) by norm_num,
    show (0.3:ℚ) < 0.5 by norm_num]

theorem exEvalIsoA : evaluate_single_lender exOracleIso exLenderA = .ok exDtoA := by
  simp [evaluate_single_lender, exOracleIso, exLenderA, convert_to_lender_match_dto,
    mkLenderMatchDTO, adjust_confidence, exDtoA,
    show ¬ ((0.9:ℚ) < 0.5) by norm_num, show (0:ℚ) ≤ 0.9 by norm_num,
    show (0.9:ℚ) ≤ 1 by norm_num]

theorem exEvalIsoB :
    evaluate_single_lender exOracleIso exLenderB = .error .oracleError := by
  simp [evaluate_single_lender, exOracleIso, exLenderB]

theorem exEvalIsoC : evaluate_single_lender exOracleIso exLenderC = .ok exDtoC := by
  simp [evaluate_single_lender, exOracleIso, exLenderC, convert_to_lender_match_dto,
    mkLenderMatchDTO, adjust_confidence, exDtoC,
    show ¬ ((0.5:ℚ) ≤ 0.3) by norm_num, show (0:ℚ) ≤ 0.3 by norm_num,
    show (0.3:ℚ) ≤ 1 by norm_num]

theorem exIso_report :
    evaluate_application "app-2" exOracleIso [exLenderA, exLenderB, exLenderC] 9 =
      { application_id := "app-2", matched_lenders := [exDtoA],
        unmatched_lenders := [exDtoC], analysis_timestamp := 9,
        total_lenders_evaluated := 3 } := by
  simp [evaluate_application, exEvalIsoA, exEvalIsoB, exEvalIsoC, successes,
    Except.toOption, sortDesc, insertDesc, exDtoA, exDtoC,
    show (0.5:ℚ) ≤ 0.9 by norm_num, show ¬ ((0.5:ℚ) ≤ 0.3) by norm_num,
    show (0.3:ℚ) < 0.5 by norm_num]

theorem exEvalNone : evaluate_single_lender exOracleNone exLenderA = .ok exDtoNone := by
  simp [evaluate_single_lender, exOracleNone, exLenderA, convert_to_lender_match_dto,
    mkLenderMatchDTO, adjust_confidence, exDtoNone,
    show (0.5:ℚ) ≤ 0.5 by norm_num, show (0:ℚ) ≤ 0.4 by norm_num,
    show (0.4:ℚ) ≤ 1 by norm_num]

/-! ### Claim theorems -/

/-- C1: for every report returned by the orchestrator, every judgment placed
in the matched list has confidence at least 0.5 and every judgment placed in
the unmatched list has confidence below 0.5 — for every application, oracle
behaviour and lender list. -/
theorem claim_partition_invariant (application_id : String)
    (oracle : LenderData → OracleOutcome) (lenders : List LenderData) (now : Nat)
    (d : LenderMatchDTO) :
    (d ∈ (evaluate_application application_id oracle lenders now).matched_lenders →
      0.5 ≤ d.confidence_score) ∧
    (d ∈ (evaluate_application application_id oracle lenders now).unmatched_lenders →
      d.confidence_score < 0.5) := by
  constructor
  · intro h
    exact (mem_matched_iff.mp h).2
  · intro h
    exact lt_of_not_le (mem_unmatched_iff.mp h).2

/-- Witness for C1: in the concrete three-lender report, the matched
judgment for lender A has confidence at least 0.5 and the unmatched judgment
for lender C has confidence below 0.5. -/
theorem claim_partition_invariant_witness :
    (0.5:ℚ) ≤ exDtoA.confidence_score ∧ exDtoC.confidence_score < 0.5 :=
  ⟨(claim_partition_invariant "app-1" exOracleSort [exLenderA, exLenderB, exLenderC]
      7 exDtoA).1 (by rw [exSort_report]; simp),
   (claim_partition_invariant "app-1" exOracleSort [exLenderA, exLenderB, exLenderC]
      7 exDtoC).2 (by rw [exSort_report]; simp)⟩

/-- C6: in every report both partitions are sorted by descending confidence;
the sort is stable keyed only on confidence, so for every confidence value
the judgments carrying it appear exactly as in the gathered submission-order
success list; and the spec's example — lenders [A, B, C] with confidences
[0.9, 0.9, 0.3] — yields matched = [A, B] and unmatched = [C]. -/
theorem claim_sort_rule :
    (∀ (application_id : String) (oracle : LenderData → OracleOutcome)
        (lenders : List LenderData) (now : Nat),
      (evaluate_application application_id oracle lenders now).matched_lenders.Pairwise
          (fun a b => b.confidence_score ≤ a.confidence_score) ∧
      (evaluate_application application_id oracle lenders now).unmatched_lenders.Pairwise
          (fun a b => b.confidence_score ≤ a.confidence_score)) ∧
    (∀ (application_id : String) (oracle : LenderData → OracleOutcome)
        (lenders : List LenderData) (now : Nat) (c : ℚ),
      (evaluate_application application_id oracle lenders now).matched_lenders.filter
          (fun d => d.confidence_score = c) =
        ((successes (lenders.map (evaluate_single_lender oracle))).filter
          (fun d => 0.5 ≤ d.confidence_score)).filter (fun d => d.confidence_score = c) ∧
      (evaluate_application application_id oracle lenders now).unmatched_lenders.filter
          (fun d => d.confidence_score = c) =
        ((successes (lenders.map (evaluate_single_lender oracle))).filter
          (fun d => ¬ 0.5 ≤ d.confidence_score)).filter
            (fun d => d.confidence_score = c)) ∧
    (evaluate_application "app-1" exOracleSort [exLenderA, exLenderB, exLenderC]
        7).matched_lenders = [exDtoA, exDtoB] ∧
    (evaluate_application "app-1" exOracleSort [exLenderA, exLenderB, exLenderC]
        7).unmatched_lenders = [exDtoC] := by
  refine ⟨?_, ?_, ?_, ?_⟩
  · intro application_id oracle lenders now
    exact ⟨sortDesc_pairwise _, sortDesc_pairwise _⟩
  · intro application_id oracle lenders now c
    exact ⟨sortDesc_filter _ c, sortDesc_filter _ c⟩
  · rw [exSort_report]
  · rw [exSort_report]

/-- C3: failure isolation.  For every orchestration call the two partitions
together are a permutation of exactly the judgments of the lenders whose
evaluations succeeded (failed lenders contribute nothing to either list),
`total_lenders_evaluated` equals the length of the submitted lender list,
and the orchestration is a total function of the per-lender outcomes — each
per-lender exception is materialised as a value by
`asyncio.gather(..., return_exceptions=True)` and skipped, never re-raised.
The spec's scenario (B faulting among A, B, C) yields judgments for A and C
only with total 3. -/
theorem claim_failure_isolation :
    (∀ (application_id : String) (oracle : LenderData → OracleOutcome)
        (lenders : List LenderData) (now : Nat),
      List.Perm
        ((evaluate_application application_id oracle lenders now).matched_lenders ++
          (evaluate_application application_id oracle lenders now).unmatched_lenders)
        (successes (lenders.map (evaluate_single_lender oracle))) ∧
      (evaluate_application application_id oracle lenders now).total_lenders_evaluated =
        lenders.length) ∧
    (evaluate_application "app-2" exOracleIso [exLenderA, exLenderB, exLenderC]
        9).matched_lenders = [exDtoA] ∧
    (evaluate_application "app-2" exOracleIso [exLenderA, exLenderB, exLenderC]
        9).unmatched_lenders = [exDtoC] ∧
    (evaluate_application "app-2" exOracleIso [exLenderA, exLenderB, exLenderC]
        9).total_lenders_evaluated = 3 := by
  refine ⟨?_, ?_, ?_, ?_⟩
  · intro application_id oracle lenders now
    constructor
    · have hperm :
          List.Perm
            ((evaluate_application application_id oracle lenders now).matched_lenders ++
              (evaluate_application application_id oracle lenders now).unmatched_lenders)
            (((successes (lenders.map (evaluate_single_lender oracle))).filter
                (fun r => 0.5 ≤ r.confidence_score)) ++
              ((successes (lenders.map (evaluate_single_lender oracle))).filter
                (fun r => ¬ 0.5 ≤ r.confidence_score))) :=
        List.Perm.append (sortDesc_perm _) (sortDesc_perm _)
      refine hperm.trans ?_
      have hcongr :
          (successes (lenders.map (evaluate_single_lender oracle))).filter
              (fun r => ¬ 0.5 ≤ r.confidence_score) =
            (successes (lenders.map (evaluate_single_lender oracle))).filter
              (fun r => ! decide (0.5 ≤ r.confidence_score)) := by
        apply List.filter_congr
        intro a _
        rw [← decide_not]
      rw [hcongr]
      exact List.filter_append_perm _ _
    · rfl
  · rw [exIso_report]
  · rw [exIso_report]
  · rw [exIso_report]

/-- C2: the confidence-consistency correction clamps a non-matching payload
with confidence at least 0.5 to exactly 0.4, clamps a matching payload with
confidence below 0.5 to exactly 0.6, passes every other confidence through
unmodified (in particular a matching payload with confidence 0.8 keeps 0.8),
and the confidence stored in every successfully built judgment is exactly
the corrected value. -/
theorem claim_confidence_consistency :
    (∀ (om : Bool) (base : ℚ), om = false → 0.5 ≤ base →
      adjust_confidence om base = 0.4) ∧
    (∀ (om : Bool) (base : ℚ), om = true → base < 0.5 →
      adjust_confidence om base = 0.6) ∧
    (∀ (om : Bool) (base : ℚ), ¬ (om = false ∧ 0.5 ≤ base) →
      ¬ (om = true ∧ base < 0.5) → adjust_confidence om base = base) ∧
    adjust_confidence true 0.8 = 0.8 ∧
    (∀ (lender_id lender_name : String) (p : AnalysisPayload) (dto : LenderMatchDTO),
      convert_to_lender_match_dto lender_id lender_name p = .ok dto →
      dto.confidence_score =
        adjust_confidence (p.overall_match.getD false) (p.confidence_score.getD 0.5)) := by
  refine ⟨?_, ?_, ?_, ?_, ?_⟩
  · intro om base h1 h2
    subst h1
    simp [adjust_confidence, h2]
  · intro om base h1 h2
    subst h1
    simp [adjust_confidence, h2]
  · intro om base h1 h2
    cases om with
    | false =>
        have hb : ¬ 0.5 ≤ base := fun hc => h1 ⟨rfl, hc⟩
        simp [adjust_confidence, hb]
    | true =>
        have hb : ¬ base < 0.5 := fun hc => h2 ⟨rfl, hc⟩
        simp [adjust_confidence, hb]
  · norm_num [adjust_confidence]
  · intro lender_id lender_name p dto h
    exact convert_ok_conf h

/-- Witness for C2: the three concrete oracle outputs named by the spec. -/
theorem claim_confidence_consistency_witness :
    adjust_confidence false 0.9 = 0.4 ∧ adjust_confidence true 0.1 = 0.6 ∧
      adjust_confidence true 0.8 = 0.8 ∧ exDtoA.confidence_score =
        adjust_confidence (some true |>.getD false) (some (0.9:ℚ) |>.getD 0.5) :=
  ⟨claim_confidence_consistency.1 false 0.9 rfl (by norm_num),
   claim_confidence_consistency.2.1 true 0.1 rfl (by norm_num),
   claim_confidence_consistency.2.2.2.1,
   claim_confidence_consistency.2.2.2.2 "A" "Lender A"
     { overall_match := some true, confidence_score := some 0.9 } exDtoA
     (by
       simp [convert_to_lender_match_dto, mkLenderMatchDTO, adjust_confidence, exDtoA,
         show ¬ ((0.9:ℚ) < 0.5) by norm_num, show (0:ℚ) ≤ 0.9 by norm_num,
         show (0.9:ℚ) ≤ 1 by norm_num])⟩

/-- C7: for a lender whose evaluation succeeds, the judgment lands in the
matched partition exactly when the parsed oracle payload's overall match
flag (defaulted to false when absent) is true: the clamp makes the 0.5
threshold agree with the oracle's boolean verdict. -/
theorem claim_partition_agrees_with_verdict (application_id : String)
    (oracle : LenderData → OracleOutcome) (lenders : List LenderData) (now : Nat)
    (lender : LenderData) (p : AnalysisPayload) (dto : LenderMatchDTO)
    (hl : lender ∈ lenders) (hp : oracle lender = .parsed p)
    (hok : evaluate_single_lender oracle lender = .ok dto) :
    dto ∈ (evaluate_application application_id oracle lenders now).matched_lenders ↔
      p.overall_match.getD false = true := by
  have hconv :
      convert_to_lender_match_dto (lender._id.getD "")
        (lender.name.getD "Unknown Lender") p = .ok dto := by
    rcases evaluate_single_lender_ok_iff.mp hok with ⟨q, hq, hc⟩
    rw [hp] at hq
    cases hq
    exact hc
  have hconf := convert_ok_conf hconv
  have hiff : 0.5 ≤ dto.confidence_score ↔ p.overall_match.getD false = true := by
    rw [hconf]
    exact adjust_confidence_ge_half_iff _ _
  have hmem : dto ∈ successes (lenders.map (evaluate_single_lender oracle)) :=
    mem_successes.mpr (List.mem_map.mpr ⟨lender, hl, hok⟩)
  constructor
  · intro h
    exact hiff.mp (mem_matched_iff.mp h).2
  · intro h
    exact mem_matched_iff.mpr ⟨hmem, hiff.mpr h⟩

/-- Witness for C7: lender A's payload reports a match, and its judgment is
in the matched list of the concrete report. -/
theorem claim_partition_agrees_with_verdict_witness :
    exDtoA ∈ (evaluate_application "app-1" exOracleSort
      [exLenderA, exLenderB, exLenderC] 7).matched_lenders :=
  (claim_partition_agrees_with_verdict "app-1" exOracleSort
      [exLenderA, exLenderB, exLenderC] 7 exLenderA
      { overall_match := some true, confidence_score := some 0.9 } exDtoA
      (by simp) (by simp [exOracleSort, exLenderA]) exEvalA).mpr rfl

/-- C9: every judgment appearing in either partition of any report has its
confidence in [0, 1] (the pydantic bound on `LenderMatchDTO`), and a payload
whose post-correction confidence falls outside [0, 1] never yields a
judgment: building the DTO fails with the validation error, so that lender
is isolated like any other failure. -/
theorem claim_confidence_in_unit_interval :
    (∀ (application_id : String) (oracle : LenderData → OracleOutcome)
        (lenders : List LenderData) (now : Nat) (d : LenderMatchDTO),
      (d ∈ (evaluate_application application_id oracle lenders now).matched_lenders ∨
        d ∈ (evaluate_application application_id oracle lenders now).unmatched_lenders) →
      0 ≤ d.confidence_score ∧ d.confidence_score ≤ 1) ∧
    (∀ (lender_id lender_name : String) (p : AnalysisPayload),
      ¬ (0 ≤ adjust_confidence (p.overall_match.getD false)
            (p.confidence_score.getD 0.5) ∧
          adjust_confidence (p.overall_match.getD false)
            (p.confidence_score.getD 0.5) ≤ 1) →
      convert_to_lender_match_dto lender_id lender_name p =
        .error .validationError) := by
  constructor
  · intro application_id oracle lenders now d hd
    have hmem : d ∈ successes (lenders.map (evaluate_single_lender oracle)) := by
      rcases hd with h | h
      · exact (mem_matched_iff.mp h).1
      · exact (mem_unmatched_iff.mp h).1
    rcases List.mem_map.mp (mem_successes.mp hmem) with ⟨lender, -, hok⟩
    rcases evaluate_single_lender_ok_iff.mp hok with ⟨p, -, hconv⟩
    exact convert_ok_bounds hconv
  · intro lender_id lender_name p hv
    exact convert_invalid hv

/-- Witness for C9: the matched judgment of the concrete report is within
bounds, and a payload reporting a match with confidence 1.5 fails DTO
validation instead of producing a judgment. -/
theorem claim_confidence_in_unit_interval_witness :
    (0 ≤ exDtoA.confidence_score ∧ exDtoA.confidence_score ≤ 1) ∧
      convert_to_lender_match_dto "X" "Lender X"
        { overall_match := some true, confidence_score := some 1.5 } =
        .error .validationError :=
  ⟨claim_confidence_in_unit_interval.1 "app-1" exOracleSort
      [exLenderA, exLenderB, exLenderC] 7 exDtoA
      (Or.inl (by rw [exSort_report]; simp)),
   claim_confidence_in_unit_interval.2 "X" "Lender X"
      { overall_match := some true, confidence_score := some 1.5 }
      (by norm_num [adjust_confidence])⟩

/-- C10: a successfully parsed payload that omits both `overall_match` and
`confidence_score` always converts (defaults false and 0.5 are read, the
correction drops the confidence to exactly 0.4), and the resulting judgment
is always placed in the unmatched partition and never in matched. -/
theorem claim_missing_fields_default :
    (∀ (lender_id lender_name : String) (p : AnalysisPayload),
      p.overall_match = none → p.confidence_score = none →
      ∃ dto, convert_to_lender_match_dto lender_id lender_name p = .ok dto ∧
        dto.confidence_score = 0.4) ∧
    (∀ (application_id : String) (oracle : LenderData → OracleOutcome)
        (lenders : List LenderData) (now : Nat) (lender : LenderData)
        (p : AnalysisPayload) (dto : LenderMatchDTO),
      lender ∈ lenders → oracle lender = .parsed p →
      p.overall_match = none → p.confidence_score = none →
      evaluate_single_lender oracle lender = .ok dto →
      dto ∈ (evaluate_application application_id oracle lenders now).unmatched_lenders ∧
        dto ∉ (evaluate_application application_id oracle lenders now).matched_lenders) := by
  constructor
  · intro lender_id lender_name p h1 h2
    refine ⟨{ lender_id := lender_id
              lender_name := lender_name
              confidence_score := 0.4
              overall_reasoning := p.overall_reasoning.getD ""
              criteria_evaluations := (p.criteria_evaluations.getD []).map convert_crit
              improvement_suggestions := some (p.improvement_suggestions.getD []) },
      ?_, rfl⟩
    simp [convert_to_lender_match_dto, mkLenderMatchDTO, adjust_confidence, h1, h2,
      show (0.5:ℚ) ≤ 0.5 by norm_num, show (0:ℚ) ≤ 0.4 by norm_num,
      show (0.4:ℚ) ≤ 1 by norm_num]
  · intro application_id oracle lenders now lender p dto hl hp h1 h2 hok
    have hconv :
        convert_to_lender_match_dto (lender._id.getD "")
          (lender.name.getD "Unknown Lender") p = .ok dto := by
      rcases evaluate_single_lender_ok_iff.mp hok with ⟨q, hq, hc⟩
      rw [hp] at hq
      cases hq
      exact hc
    have hconf : dto.confidence_score = 0.4 := by
      rw [convert_ok_conf hconv, h1, h2]
      norm_num [adjust_confidence]
    have hlt : ¬ 0.5 ≤ dto.confidence_score := by
      rw [hconf]
      norm_num
    have hmem : dto ∈ successes (lenders.map (evaluate_single_lender oracle)) :=
      mem_successes.mpr (List.mem_map.mpr ⟨lender, hl, hok⟩)
    constructor
    · exact mem_unmatched_iff.mpr ⟨hmem, hlt⟩
    · intro h
      exact hlt (mem_matched_iff.mp h).2

/-- Witness for C10: with an empty payload the single lender A converts to a
judgment with confidence 0.4 that sits in unmatched and not in matched. -/
theorem claim_missing_fields_default_witness :
    exDtoNone ∈ (evaluate_application "app-3" exOracleNone [exLenderA]
        3).unmatched_lenders ∧
      exDtoNone ∉ (evaluate_application "app-3" exOracleNone [exLenderA]
        3).matched_lenders :=
  claim_missing_fields_default.2 "app-3" exOracleNone [exLenderA] 3 exLenderA
    { overall_match := none, confidence_score := none } exDtoNone
    (by simp) rfl rfl rfl exEvalNone

/-- C4 counterexample: calling the orchestrator's evaluate operation with an
empty lender list does not fail — it returns an ordinary (empty)
EligibilityReport with `total_lenders_evaluated = 0`, so the claim that the
call "always fails with the precondition error and produces no report" is
false of `evaluate_application` itself. -/
theorem claim_empty_lenders_counterexample :
    evaluate_application "app-0" (fun _ => OracleOutcome.httpError) [] 5 =
      { application_id := "app-0", matched_lenders := [], unmatched_lenders := [],
        analysis_timestamp := 5, total_lenders_evaluated := 0 } := rfl

/-- C4 amended: the empty-lender precondition is enforced one layer up, in
the HTTP routes: with an empty lender list the route fails with the 400
"no lenders available" error and never invokes the orchestrator, while the
orchestrator itself, called directly with an empty list, returns an empty
report with `total_lenders_evaluated = 0`. -/
theorem claim_empty_lenders_amended :
    (∀ (application_id : String) (oracle : LenderData → OracleOutcome) (now : Nat),
      submit_and_evaluate application_id oracle [] now =
        .error .noLendersAvailable) ∧
    (∀ (application_id : String) (oracle : LenderData → OracleOutcome) (now : Nat),
      evaluate_application application_id oracle [] now =
        { application_id := application_id, matched_lenders := [],
          unmatched_lenders := [], analysis_timestamp := now,
          total_lenders_evaluated := 0 }) :=
  ⟨fun _ _ _ => rfl, fun _ _ _ => rfl⟩

/-- C5: the repair pass does not exist in the code.  The method invoked at
line 161 is not defined anywhere in the repository, so Python raises
`AttributeError` as soon as the fallback is entered: no trailing-comma or
control-character repair is ever applied, no second parse of a repaired text
happens, and every response whose cleaned text fails strict parsing makes
that lender's evaluation fail through the missing attribute.  The concrete
trailing-comma payload demonstrates it, and the behaviour holds for every
response text that fails strict parsing. -/
theorem claim_repair_pass_missing :
    json_loads (clean_response_text badTrailingComma) = none ∧
    parse_analysis badTrailingComma = .error .attributeMissing ∧
    (∀ text : List Char, json_loads (clean_response_text text) = none →
      parse_analysis text = .error .attributeMissing) := by
  refine ⟨rfl, rfl, ?_⟩
  intro text h
  simp [parse_analysis, h, fix_json_issues]

/-- Witness for C5: the universal part applied to the concrete
trailing-comma payload. -/
theorem claim_repair_pass_missing_witness :
    parse_analysis badTrailingComma = .error .attributeMissing :=
  claim_repair_pass_missing.2.2 badTrailingComma rfl

/-- C8 counterexample: the fence stripper only recognises the bare fence and
the `json` language tag, so a payload wrapped in a fenced block with the
`python` language tag does not round-trip: the wrapped form fails to parse
while the bare payload parses, contradicting the claim for blocks "with a
language tag" in general. -/
theorem claim_fence_idempotence_counterexample :
    json_loads (clean_response_text
        (fenceWrapTagged "python".toList "\x7b\x7d".toList)) = none ∧
    json_loads (clean_response_text "\x7b\x7d".toList) =
      some (Json.obj []) ∧
    json_loads (clean_response_text
        (fenceWrapTagged "python".toList "\x7b\x7d".toList)) ≠
      json_loads (clean_response_text "\x7b\x7d".toList) := by
  refine ⟨rfl, rfl, ?_⟩
  intro h
  rw [show json_loads (clean_response_text
        (fenceWrapTagged "python".toList "\x7b\x7d".toList)) = none from rfl,
      show json_loads (clean_response_text "\x7b\x7d".toList) =
        some (Json.obj []) from rfl] at h
  cases h

/-- C8 amended: fence-stripping idempotence holds for the two fence shapes
the cleaner strips — the `json`-tagged fence and the bare fence — for every
payload whose stripped text does not itself begin or end with a fence
marker; the cleaned texts are then identical, hence so are the parsed
results. -/
theorem claim_fence_idempotence_amended (p : List Char)
    (h1 : fence.isPrefixOf (pyStrip p) = false)
    (h2 : fence.isSuffixOf (pyStrip p) = false) :
    clean_response_text (fenceWrapJson p) = clean_response_text p ∧
    clean_response_text (fenceWrapBare p) = clean_response_text p ∧
    json_loads (clean_response_text (fenceWrapJson p)) =
      json_loads (clean_response_text p) ∧
    json_loads (clean_response_text (fenceWrapBare p)) =
      json_loads (clean_response_text p) := by
  refine ⟨clean_fenceWrapJson p h1 h2, clean_fenceWrapBare p h1 h2, ?_, ?_⟩
  · rw [clean_fenceWrapJson p h1 h2]
  · rw [clean_fenceWrapBare p h1 h2]

/-- Witness for C8: the amended idempotence at the concrete payload of an
empty JSON object. -/
theorem claim_fence_idempotence_amended_witness :
    clean_response_text (fenceWrapJson "\x7b\x7d".toList) =
      clean_response_text "\x7b\x7d".toList ∧
    clean_response_text (fenceWrapBare "\x7b\x7d".toList) =
      clean_response_text "\x7b\x7d".toList ∧
    json_loads (clean_response_text (fenceWrapJson "\x7b\x7d".toList)) =
      json_loads (clean_response_text "\x7b\x7d".toList) ∧
    json_loads (clean_response_text (fenceWrapBare "\x7b\x7d".toList)) =
      json_loads (clean_response_text "\x7b\x7d".toList) :=
  claim_fence_idempotence_amended "\x7b\x7d".toList rfl rfl

end LenderMatching
